import Mathlib

/-!
Shallow embedding of the mappa-node SDK core (transport retry/error
classification, SSE frame decoding, job stream/wait state machines, webhook
signature verification), with theorems checking the natural-language
specification against it.

Sources embedded:
* `src/resources/transport.ts` — `coerceApiError`, `shouldRetry`, the retry
  loop of `request()`, `parseSSEStream`, `parseSSEEvent`;
* `src/utils` — `backoffMs`, `jitter` (modelled as an abstract function);
* the SSE `JobsResource` (`stream`, `wait`, `mapSSEToJobEvent`) and the
  polling `JobsResource` (`stream`, `wait`) from `src/resources/jobs.ts`;
* `src/errors.ts` — the error taxonomy, embedded as inductive types;
* `src/resources/webhooks.ts` — `parseSig`, `verifySignature`,
  `timingSafeEqualHex`.

Network, timers and the event loop are modelled by explicit schedules: a run
of a retry loop is a function of the list of outcomes the environment
produced for its successive attempts.
-/

namespace MappaNode

/-! ## JavaScript string primitives

The source manipulates JavaScript strings (`split`, `startsWith`, `slice`,
`trim`, `toLowerCase`, `Number(...)`).  These are modelled structurally over
the string's character list, so that both proofs and the kernel can evaluate
them (Lean's own `String.splitOn`, `String.toInt?`, ... use well-founded
byte-position recursion, which the kernel cannot unfold). -/

/-- `s.startsWith(p)`. -/
def jsStartsWith (s p : String) : Bool := p.data.isPrefixOf s.data

/-- `s.slice(n)` for a nonnegative `n` (drop the first `n` characters). -/
def jsDrop (s : String) (n : Nat) : String := ⟨s.data.drop n⟩

/-- `s.trim()`: strip leading and trailing whitespace. -/
def jsTrim (s : String) : String :=
  ⟨((s.data.dropWhile Char.isWhitespace).reverse.dropWhile Char.isWhitespace).reverse⟩

/-- Worker for `jsSplit`, with explicit fuel (any fuel at least the length of
the remaining text is exact; the fuel-zero fallback is unreachable then). -/
def jsSplitAux (sep : List Char) : Nat → List Char → List Char → List String
  | 0, l, acc => [⟨acc.reverse ++ l⟩]
  | _ + 1, [], acc => [⟨acc.reverse⟩]
  | fuel + 1, c :: rest, acc =>
    if sep.isPrefixOf (c :: rest) then
      ⟨acc.reverse⟩ :: jsSplitAux sep fuel ((c :: rest).drop sep.length) []
    else jsSplitAux sep fuel rest (c :: acc)

/-- `s.split(sep)` for a non-empty literal separator: the list of chunks
between non-overlapping leftmost occurrences of `sep` (always non-empty;
`"".split(sep) = [""]`, a trailing separator yields a trailing `""`). -/
def jsSplit (s sep : String) : List String :=
  jsSplitAux sep.data s.data.length s.data []

/-- Digit-string accumulator for `jsToInt?`. -/
def digitsToNat : List Char → Nat → Option Nat
  | [], acc => some acc
  | c :: rest, acc =>
    if c.isDigit then digitsToNat rest (acc * 10 + (c.toNat - 48)) else none

/-- `Number(s)` restricted to the optionally-`-`-signed decimal integer
strings the wire carries (`Retry-After` values, signature timestamps);
anything else — including the empty string — counts as unparseable, standing
for `NaN` (the sole deviation, `Number("") = 0`, is unreachable: both callers
skip empty strings first). -/
def jsToInt? (s : String) : Option Int :=
  match s.data with
  | [] => none
  | '-' :: rest =>
    match rest with
    | [] => none
    | _ => (digitsToNat rest 0).map (fun n => -(n : Int))
  | l => (digitsToNat l 0).map (fun n => (n : Int))

/-- `s.toLowerCase()` (ASCII, as used on header names). -/
def jsToLower (s : String) : String := ⟨s.data.map Char.toLower⟩

/-- A JSON value as produced by `JSON.parse` on a response body.  Numbers are
modelled as integers (the envelopes the classifier reads carry integer
credits/counts); `null` is `jnull`.  An absent (`undefined`) member is the
absence of the key in a `jobj`. -/
inductive JsonVal where
  | jnull
  | jbool (b : Bool)
  | jnum (n : Int)
  | jstr (s : String)
  | jarr (elems : List JsonVal)
  | jobj (fields : List (String × JsonVal))

/-- JavaScript property read `j[k]`: a value for an object that has the key,
`undefined` (here `none`) otherwise.  Arrays and primitives have no string
keys the classifier reads. -/
def jget? (j : JsonVal) (k : String) : Option JsonVal :=
  match j with
  | .jobj fs => fs.lookup k
  | _ => none

/-- JavaScript `k in e` on the envelope object (key presence, even when the
value is `null`). -/
def hasKey (j : JsonVal) (k : String) : Bool :=
  match j with
  | .jobj fs => fs.any (fun p => p.1 == k)
  | _ => false

/-- `v && typeof v === "object"`: true for objects and arrays, false for
`null`, strings, numbers and booleans. -/
def isObjLike : JsonVal → Bool
  | .jobj _ => true
  | .jarr _ => true
  | _ => false

/-- The envelope object `err = p.error ?? p` read by `coerceApiError`
(`??` falls back when the member is absent or `null`). -/
def envErr (parsed : JsonVal) : JsonVal :=
  match jget? parsed "error" with
  | none => parsed
  | some .jnull => parsed
  | some v => v

/-- The `message` extracted by `coerceApiError`: the body itself when it is a
string; `err.message` when the body and `err` are objects and that member is
a string; otherwise the default `Request failed with status N`. -/
def envMessage (status : Nat) (parsed : JsonVal) : String :=
  match parsed with
  | .jstr s => s
  | _ =>
    if isObjLike parsed && isObjLike (envErr parsed) then
      match jget? (envErr parsed) "message" with
      | some (.jstr m) => m
      | _ => "Request failed with status " ++ toString status
    else "Request failed with status " ++ toString status

/-- The `code` extracted by `coerceApiError`: `err.code` when it is a string. -/
def envCode (parsed : JsonVal) : Option String :=
  if isObjLike parsed && isObjLike (envErr parsed) then
    match jget? (envErr parsed) "code" with
    | some (.jstr c) => some c
    | _ => none
  else none

/-- The `details` carried by the classified error: initialized to the whole
parsed body, replaced by `err.details` only when the envelope object has a
`details` member (`"details" in e`). -/
def envDetails (parsed : JsonVal) : JsonVal :=
  if isObjLike parsed && isObjLike (envErr parsed) && hasKey (envErr parsed) "details" then
    (jget? (envErr parsed) "details").getD .jnull
  else parsed

/-- `x ?? 0` as used by the `InsufficientCreditsError` constructor on
`details?.required` / `details?.available`: the member's value unless the
read gives `undefined` or `null`, in which case `0`. -/
def nullishZero (v : Option JsonVal) : JsonVal :=
  match v with
  | none => .jnum 0
  | some .jnull => .jnum 0
  | some w => w

/-- `Retry-After` parsing in `coerceApiError`: `Number(ra)` accepted when
finite and nonnegative, converted to milliseconds.  `Number` is modelled on
the integer strings the wire carries (`jsToInt?`); a missing or
unparseable header leaves the hint unset. -/
def parseRetryAfterMs (ra : Option String) : Option Nat :=
  match ra with
  | none => none
  | some s =>
    match jsToInt? s with
    | some n => if 0 ≤ n then some (n.toNat * 1000) else none
    | none => none

/-- The typed API error hierarchy of `src/errors.ts`, one constructor per
class (`AuthError`, `ValidationError`, `InsufficientCreditsError`,
`RateLimitError`, plain `ApiError`), with each class's own fields. -/
inductive ApiErr where
  | auth (status : Nat) (message : String) (code : Option String)
      (requestId : Option String) (details : JsonVal)
  | validation (status : Nat) (message : String) (code : Option String)
      (requestId : Option String) (details : JsonVal)
  | insufficientCredits (status : Nat) (message : String) (code : Option String)
      (requestId : Option String) (required available : JsonVal) (details : JsonVal)
  | rateLimit (status : Nat) (message : String) (code : Option String)
      (requestId : Option String) (details : JsonVal) (retryAfterMs : Option Nat)
  | api (status : Nat) (message : String) (code : Option String)
      (requestId : Option String) (details : JsonVal)

/-- The class (the `name` field) of a classified error. -/
inductive ErrName where
  | authError
  | validationError
  | insufficientCreditsError
  | rateLimitError
  | apiError
deriving DecidableEq

def ApiErr.kind : ApiErr → ErrName
  | .auth .. => .authError
  | .validation .. => .validationError
  | .insufficientCredits .. => .insufficientCreditsError
  | .rateLimit .. => .rateLimitError
  | .api .. => .apiError

def ApiErr.status : ApiErr → Nat
  | .auth s .. => s
  | .validation s .. => s
  | .insufficientCredits s .. => s
  | .rateLimit s .. => s
  | .api s .. => s

/-- The `required` field of an `InsufficientCreditsError` (`none` for the
other classes). -/
def ApiErr.requiredJson : ApiErr → Option JsonVal
  | .insufficientCredits _ _ _ _ r _ _ => some r
  | _ => none

/-- The `available` field of an `InsufficientCreditsError`. -/
def ApiErr.availableJson : ApiErr → Option JsonVal
  | .insufficientCredits _ _ _ _ _ a _ => some a
  | _ => none

/-- `coerceApiError` from `src/resources/transport.ts`: classify a non-2xx
response from its HTTP status, `x-request-id` header, `retry-after` header
and parsed body. -/
def coerceApiError (status : Nat) (requestId : Option String)
    (retryAfter : Option String) (parsed : JsonVal) : ApiErr :=
  let message := envMessage status parsed
  let code := envCode parsed
  let details := envDetails parsed
  if status = 401 ∨ status = 403 then .auth status message code requestId details
  else if status = 422 then .validation status message code requestId details
  else if status = 402 ∧ code = some "insufficient_credits" then
    .insufficientCredits status message code requestId
      (nullishZero (jget? details "required")) (nullishZero (jget? details "available")) details
  else if status = 429 then
    .rateLimit status message code requestId details (parseRetryAfterMs retryAfter)
  else .api status message code requestId details

/-- What `Transport.request`'s catch/response handlers can see: a classified
API error, a `TypeError` from `fetch` (network failure), or the abort error
produced by `makeAbortError`. -/
inductive ReqErr where
  | apiE (e : ApiErr)
  | typeError
  | abort

/-- `shouldRetry` from `src/resources/transport.ts`: a pair of the retry
decision and the `retryAfterMs` hint (set only through a `RateLimitError`). -/
def shouldRetry (retryable : Bool) (err : ReqErr) : Bool × Option Nat :=
  if !retryable then (false, none)
  else
    match err with
    | .apiE (.rateLimit _ _ _ _ _ ram) => (true, ram)
    | .apiE e => (decide (500 ≤ e.status ∧ e.status ≤ 599), none)
    | .typeError => (true, none)
    | .abort => (false, none)

/-- `backoffMs` from `src/utils`: `min (baseMs * 2 ^ (attempt - 1)) maxMs`
(`Math.max(0, attempt - 1)` is truncated subtraction on `Nat`). -/
def backoffMs (attempt baseMs maxMs : Nat) : Nat :=
  min (baseMs * 2 ^ (attempt - 1)) maxMs

/-- Environment outcome of one `fetch` attempt inside `Transport.request`:
a 2xx response, a non-2xx response (status, `x-request-id`, `retry-after`,
parsed body), a network failure (`fetch` throwing `TypeError`), or a
rejection with the abort error (caller signal or attempt timeout fired
mid-flight). -/
inductive FetchOutcome where
  | success (status : Nat)
  | httpError (status : Nat) (xRequestId : Option String)
      (retryAfter : Option String) (parsed : JsonVal)
  | netError
  | abortedDuring

/-- One scheduled attempt: whether the caller's signal was already aborted
when the attempt started (the `signal.aborted` pre-check), and what the
attempt produced otherwise. -/
structure ReqAttempt where
  abortedBefore : Bool
  outcome : FetchOutcome

/-- Result of the `request()` retry loop.  `outOfSchedule` is a model
artifact: the schedule ended while the loop would have attempted again. -/
inductive ReqResult where
  | ok (status : Nat)
  | raised (e : ReqErr)
  | outOfSchedule

/-- The retry loop of `Transport.request` (`for attempt = 1 .. 1+maxRetries`),
as a function of the per-attempt outcomes.  Returns the result together with
the list of backoff sleeps performed; `jf` is the jitter (`jitter ∘ random`),
abstract because it is randomized.  On a non-2xx response the error is
retried only when `shouldRetry` allows it and `attempt ≤ maxRetries`, the
sleep being `retryAfterMs ?? jitter (backoffMs attempt 500 4000)`; a thrown
abort error is never retried; the signal pre-check raises the abort error
before any fetch. -/
def requestLoop (retryable : Bool) (maxRetries : Nat) (jf : Nat → Nat) :
    Nat → List ReqAttempt → ReqResult × List Nat
  | _, [] => (.outOfSchedule, [])
  | attempt, a :: rest =>
    if a.abortedBefore then (.raised .abort, [])
    else
      match a.outcome with
      | .success st => (.ok st, [])
      | .httpError st rid ra parsed =>
        let e := coerceApiError st rid ra parsed
        let d := shouldRetry retryable (.apiE e)
        if d.1 && decide (attempt ≤ maxRetries) then
          let sleep := d.2.getD (jf (backoffMs attempt 500 4000))
          let r := requestLoop retryable maxRetries jf (attempt + 1) rest
          (r.1, sleep :: r.2)
        else (.raised (.apiE e), [])
      | .netError =>
        let d := shouldRetry retryable .typeError
        if d.1 && decide (attempt ≤ maxRetries) then
          let sleep := d.2.getD (jf (backoffMs attempt 500 4000))
          let r := requestLoop retryable maxRetries jf (attempt + 1) rest
          (r.1, sleep :: r.2)
        else (.raised .typeError, [])
      | .abortedDuring => (.raised .abort, [])

/-! ## SSE frame decoding (`Transport.parseSSEStream` / `parseSSEEvent`) -/

/-- The `data` of a parsed SSE frame: the JSON value when `JSON.parse`
succeeds, the raw assembled string otherwise. -/
inductive SSEData where
  | json (v : JsonVal)
  | raw (s : String)

/-- A parsed SSE frame (`SSEEvent<unknown>` at the transport layer). -/
structure SSEEvent where
  id : Option String
  event : String
  data : SSEData

/-- One line of `parseSSEEvent`'s loop over the state (id, event type,
assembled data): `id:`/`event:`/`data:` prefixed lines update their component
(payload trimmed; data lines newline-joined), other lines are ignored. -/
def sseLineStep (st : Option String × String × String) (line : String) :
    Option String × String × String :=
  if jsStartsWith line "id:" then (some (jsTrim (jsDrop line 3)), st.2.1, st.2.2)
  else if jsStartsWith line "event:" then (st.1, jsTrim (jsDrop line 6), st.2.2)
  else if jsStartsWith line "data:" then
    let piece := jsTrim (jsDrop line 5)
    (st.1, st.2.1, if st.2.2 ≠ "" then st.2.2 ++ "\n" ++ piece else piece)
  else st

/-- `parseSSEEvent` from `src/resources/transport.ts`: fold `sseLineStep`
over the frame's lines starting from (no id, default event type `message`,
empty data); a frame whose assembled data is empty gives `null`; otherwise
the data is JSON-parsed with the raw string as fallback.  `jsonParse`
abstracts `JSON.parse` (returning `none` where it would throw). -/
def parseSSEEvent (jsonParse : String → Option JsonVal) (text : String) :
    Option SSEEvent :=
  let folded := (jsSplit text "\n").foldl sseLineStep (none, "message", "")
  if folded.2.2 = "" then none
  else
    some { id := folded.1, event := folded.2.1,
           data := match jsonParse folded.2.2 with
                   | some v => .json v
                   | none => .raw folded.2.2 }

/-- One step of the frame loop of `parseSSEStream`: a complete frame is
skipped when blank (`!eventText.trim()`), else parsed and yielded when the
parse is non-null. -/
def parseSSEFrame (jsonParse : String → Option JsonVal) (t : String) :
    Option SSEEvent :=
  if jsTrim t = "" then none else parseSSEEvent jsonParse t

/-- `parseSSEStream` from `src/resources/transport.ts` as a function of the
decoded text chunks the reader delivers: the buffer plus the new chunk is
split on the blank-line delimiter, the last piece is kept as the new buffer,
complete frames are parsed and yielded in order; at stream end a non-blank
leftover buffer is parsed as a final frame. -/
def parseSSEStream (jsonParse : String → Option JsonVal) :
    String → List String → List SSEEvent
  | buffer, [] =>
    if jsTrim buffer = "" then [] else (parseSSEEvent jsonParse buffer).toList
  | buffer, c :: rest =>
    let parts := jsSplit (buffer ++ c) "\n\n"
    parts.dropLast.filterMap (parseSSEFrame jsonParse)
      ++ parseSSEStream jsonParse (parts.getLastD "") rest

/-- Whether a frame text contains at least one `data:` line. -/
def hasDataLine (text : String) : Bool :=
  (jsSplit text "\n").any (fun line => jsStartsWith line "data:")

/-- Whether the parser reads a line as a data line (the `id:`/`event:`
exclusions mirror the parser's branch order; they are vacuous on concrete
lines, a string cannot start with two different characters) with a payload
that is non-empty after trimming. -/
def readsAsNonBlankData (line : String) : Bool :=
  !jsStartsWith line "id:" && !jsStartsWith line "event:" &&
  jsStartsWith line "data:" && jsTrim (jsDrop line 5) ≠ ""

/-- Whether a frame text has a data line with a non-blank payload. -/
def hasNonBlankDataLine (text : String) : Bool :=
  (jsSplit text "\n").any readsAsNonBlankData

/-! ## Job data model and events -/

/-- `Job.error` payload (`code`, `message`; the optional `details`/`retryable`
diagnostics are not read by the stream/wait logic and are omitted). -/
structure JobError where
  code : String
  message : String
deriving DecidableEq

/-- A job snapshot (`Job` from `src/types.ts`); `status` is the lifecycle
string, `progress` a number in [0,1] (modelled as a rational, carried but
never computed with). -/
structure Job where
  id : String
  status : String
  stage : Option String := none
  progress : Option Rat := none
  reportId : Option String := none
  error : Option JobError := none
  requestId : Option String := none
deriving DecidableEq

/-- The client-facing `JobEvent` union from `src/types.ts`. -/
inductive JobEvent where
  | status (job : Job)
  | stage (stage : Option String) (progress : Option Rat) (job : Job)
  | log (message : String) (ts : String)
  | terminal (job : Job)
deriving DecidableEq

def JobEvent.isTerminal : JobEvent → Bool
  | .terminal _ => true
  | _ => false

/-- `JobStreamEventData`: the decoded `data` of a job-stream SSE frame. -/
structure JobStreamEventData where
  job : Job
  status : Option String := none
  stage : Option String := none
  progress : Option Rat := none
  reportId : Option String := none
  error : Option JobError := none
deriving DecidableEq

/-- An SSE frame as consumed by the jobs resource
(`SSEEvent<JobStreamEventData>`). -/
structure JobStreamSSEEvent where
  id : Option String := none
  event : String
  data : JobStreamEventData
deriving DecidableEq

/-- `mapSSEToJobEvent` from the SSE jobs resource: `status`/`stage`/`terminal`
map to their event, every other tag is treated as a status update.  (The
TypeScript signature allows `null` but no branch returns it.) -/
def mapSSEToJobEvent (ev : JobStreamSSEEvent) : Option JobEvent :=
  if ev.event = "status" then some (.status ev.data.job)
  else if ev.event = "stage" then some (.stage ev.data.stage ev.data.progress ev.data.job)
  else if ev.event = "terminal" then some (.terminal ev.data.job)
  else some (.status ev.data.job)

/-- The errors the jobs layer can raise.  `streamFailure` embeds the
`StreamError` class: its declaration is not among the provided sources (only
its import and construction sites are), so its fields follow the spec's §7
taxonomy — `jobId`, `lastEventId`, `retryCount` — plus message and cause as
passed at the construction sites.  `jobFailed`/`jobCanceled` embed
`JobFailedError`/`JobCanceledError` (their untyped `cause` diagnostic is
omitted); `mappa` embeds a plain `MappaError`; `plain` an untyped
JavaScript `Error`. -/
inductive StreamErr where
  | abort
  | mappa (message : String) (code : Option String)
  | apiE (e : ApiErr)
  | network
  | streamFailure (jobId : String) (message : String) (lastEventId : Option String)
      (retryCount : Nat) (cause : Option StreamErr)
  | jobFailed (jobId : String) (message : String) (code : Option String)
      (requestId : Option String)
  | jobCanceled (jobId : String) (message : String) (requestId : Option String)
  | plain (message : String)

/-! ## SSE jobs resource: `stream()` -/

/-- How the `for await` over one SSE connection ends: a terminal frame
(generator returns), an `error` frame (a `MappaError` with the server's
message/code is thrown), or the frame sequence being exhausted. -/
inductive ProcEnd where
  | terminal
  | errorFrame (message : String) (code : Option String)
  | ended
deriving DecidableEq

/-- The `for await` body of the SSE `stream()` over one connection's frames:
records each frame's `id` as `lastEventId` (also when absent), throws on
`event == "error"` (message `data.error?.message ?? "Unknown SSE error"`,
code `data.error?.code`), skips heartbeats, otherwise maps and yields the
frame and resets the retry counter to 0, returning right after yielding a
terminal frame.  Returns (yielded events, lastEventId, retry counter, how the
iteration ended). -/
def processEvents : List JobStreamSSEEvent → Option String → Nat →
    List JobEvent × Option String × Nat × ProcEnd
  | [], lid, r => ([], lid, r, .ended)
  | ev :: rest, _, r =>
    let lid' := ev.id
    if ev.event = "error" then
      ([], lid', r,
        .errorFrame ((ev.data.error.map JobError.message).getD "Unknown SSE error")
          (ev.data.error.map JobError.code))
    else if ev.event = "heartbeat" then processEvents rest lid' r
    else
      match mapSSEToJobEvent ev with
      | some je =>
        if ev.event = "terminal" then ([je], lid', r, .terminal)
        else
          let t := processEvents rest lid' 0
          (je :: t.1, t.2)
      | none => processEvents rest lid' 0

/-- How one scheduled SSE connection attempt behaves after its frames:
`clean` (the stream ends) or `exn e` (iteration raises `e`; this covers the
pre-frame failures of `streamSSE` — the already-aborted signal check raising
the abort error, a non-2xx response raising the classified API error, a
missing body raising a `MappaError` — as an attempt with no frames). -/
inductive ConnEnding where
  | clean
  | exn (e : StreamErr)

/-- One scheduled connection attempt: the frames delivered, how iteration
ends, and the value of `opts.signal.aborted` observed by the `catch` handler
when an exception reaches it. -/
structure ConnAttempt where
  events : List JobStreamSSEEvent
  ending : ConnEnding
  abortedAtCatch : Bool

/-- Result of a `stream()` run.  `pendingSchedule` is a model artifact: the
schedule ended while the loop would have reconnected. -/
inductive StreamOut where
  | completed
  | raised (e : StreamErr)
  | pendingSchedule (retries : Nat) (lastEventId : Option String)

def connFailMessage (jobId : String) : String :=
  "Stream connection failed for job " ++ jobId ++ " after 3 retries"

def statusFailMessage (jobId : String) : String :=
  "Failed to get status for job " ++ jobId ++ " after 3 retries"

/-- The reconnect loop of the SSE `stream()` (`maxRetries = 3`): while the
retry counter is below 3, run one connection; return on a terminal frame; on
an exception rethrow it when the signal is aborted, else increment the
counter and either wrap it in a `StreamError` (budget exhausted) or back off
and reconnect; on a clean end without terminal, increment and reconnect,
the loop exit raising the final `StreamError`.  Returns all yielded events
and the outcome. -/
def streamLoop (jobId : String) : Option String → Nat → List ConnAttempt →
    List JobEvent × StreamOut
  | lid, r, atts =>
    if r < 3 then
      match atts with
      | [] => ([], .pendingSchedule r lid)
      | a :: rest =>
        let p := processEvents a.events lid r
        let ys := p.1
        let lid' := p.2.1
        let r' := p.2.2.1
        match p.2.2.2 with
        | .terminal => (ys, .completed)
        | .errorFrame msg code =>
          if a.abortedAtCatch then (ys, .raised (.mappa msg code))
          else if r' + 1 ≥ 3 then
            (ys, .raised (.streamFailure jobId (connFailMessage jobId) lid' (r' + 1)
              (some (.mappa msg code))))
          else
            let t := streamLoop jobId lid' (r' + 1) rest
            (ys ++ t.1, t.2)
        | .ended =>
          match a.ending with
          | .exn err =>
            if a.abortedAtCatch then (ys, .raised err)
            else if r' + 1 ≥ 3 then
              (ys, .raised (.streamFailure jobId (connFailMessage jobId) lid' (r' + 1)
                (some err)))
            else
              let t := streamLoop jobId lid' (r' + 1) rest
              (ys ++ t.1, t.2)
          | .clean =>
            let t := streamLoop jobId lid' (r' + 1) rest
            (ys ++ t.1, t.2)
    else ([], .raised (.streamFailure jobId (statusFailMessage jobId) lid 3 none))

/-! ## SSE jobs resource: `wait()` -/

/-- Result of a `wait()` run. -/
inductive WaitOut where
  | ok (job : Job)
  | raised (e : StreamErr)
  | pendingSchedule
deriving Inhabited

def waitTimeoutMessage (jobId : String) (timeoutMs : Nat) : String :=
  "Timed out waiting for job " ++ jobId ++ " after " ++ toString timeoutMs ++ "ms"

/-- The `for await` of the SSE `wait()` over the stream's yielded events and
final outcome: on a `terminal` event return the job when `succeeded`, raise
`JobFailedError` (server error message/code, job's request id) when
`failed`, `JobCanceledError` when `canceled`, and fall through otherwise;
when iteration ends without one of these, a stream exception propagates, and
a normal stream completion raises the timeout `JobFailedError`. -/
def waitConsume (jobId : String) (timeoutMs : Nat) :
    List JobEvent → StreamOut → WaitOut
  | .terminal j :: rest, out =>
    if j.status = "succeeded" then .ok j
    else if j.status = "failed" then
      .raised (.jobFailed jobId ((j.error.map JobError.message).getD "Job failed")
        (j.error.map JobError.code) j.requestId)
    else if j.status = "canceled" then
      .raised (.jobCanceled jobId "Job canceled" j.requestId)
    else waitConsume jobId timeoutMs rest out
  | _ :: rest, out => waitConsume jobId timeoutMs rest out
  | [], .completed =>
    .raised (.jobFailed jobId (waitTimeoutMessage jobId timeoutMs) none none)
  | [], .raised e => .raised e
  | [], .pendingSchedule _ _ => .pendingSchedule

/-- The SSE `wait()`: consume `stream()` until resolution.  (The caller
signal/timeout controller composition is part of the schedule: its firing
surfaces as abort outcomes inside the stream's connection attempts.) -/
def wait (jobId : String) (timeoutMs : Nat) (atts : List ConnAttempt) : WaitOut :=
  let s := streamLoop jobId none 0 atts
  waitConsume jobId timeoutMs s.1 s.2

/-- Whether a `JobEvent` makes the SSE `wait()` stop iterating: a terminal
event whose job status is succeeded, failed or canceled. -/
def stopsWait (e : JobEvent) : Bool :=
  match e with
  | .terminal j => j.status = "succeeded" || j.status = "failed" || j.status = "canceled"
  | _ => false

/-! ## Polling jobs resource (`src/resources/jobs.ts`) -/

def isTerminalStatus (s : String) : Bool :=
  s = "succeeded" || s = "failed" || s = "canceled"

/-- Result of a polling `stream()` run: the generator returned, or the
schedule of polled snapshots ran out mid-loop (model artifact). -/
inductive PollOut where
  | finished
  | pendingSchedule (lastStatus lastStage : Option String)

/-- The change-driven events of one polling iteration ("emit useful events
only when something changes"): a status event when the status differs from
the last seen one, then a stage event when the stage is non-empty
(JavaScript truthiness) and differs from the last seen one. -/
def pollChangeEvents (ls lg : Option String) (j : Job) : List JobEvent :=
  (if ls ≠ some j.status then [JobEvent.status j] else [])
    ++ (match j.stage with
        | some s =>
          if s ≠ "" && lg ≠ some s then [JobEvent.stage (some s) j.progress j] else []
        | none => [])

/-- `lastStatus` after one polling iteration. -/
def pollNextStatus (ls : Option String) (j : Job) : Option String :=
  if ls ≠ some j.status then some j.status else ls

/-- `lastStage` after one polling iteration. -/
def pollNextStage (lg : Option String) (j : Job) : Option String :=
  match j.stage with
  | some s => if s ≠ "" && lg ≠ some s then some s else lg
  | none => lg

/-- The polling `stream()` from `src/resources/jobs.ts`, as a function of the
successively polled snapshots (each paired with the `signal.aborted` value
observed at the top of that iteration): return silently when aborted, yield
the change-driven status/stage events, then on a terminal status yield the
terminal event and return; otherwise sleep and poll again. -/
def pollStream : List (Bool × Job) → Option String → Option String →
    List JobEvent × PollOut
  | [], ls, lg => ([], .pendingSchedule ls lg)
  | (aborted, j) :: rest, ls, lg =>
    if aborted then ([], .finished)
    else
      let emitted := pollChangeEvents ls lg j
      if isTerminalStatus j.status then (emitted ++ [JobEvent.terminal j], .finished)
      else
        let t := pollStream rest (pollNextStatus ls j) (pollNextStage lg j)
        (emitted ++ t.1, t.2)

/-- The errors the polling `wait()` can raise: the typed
`JobFailedError`/`JobCanceledError`, or an untyped JavaScript
`Error(message)` (used by its abort and timeout paths). -/
inductive PollWaitErr where
  | jobFailed (jobId : String) (message : String) (code : Option String)
      (requestId : Option String)
  | jobCanceled (jobId : String) (message : String) (requestId : Option String)
  | plainError (message : String)
deriving DecidableEq

inductive PollWaitOut where
  | ok (job : Job)
  | raised (e : PollWaitErr)
  | pendingSchedule
deriving DecidableEq

/-- One scheduled iteration of the polling `wait()`: the `signal.aborted`
value at the top of the loop, the snapshot `get` returned, and the elapsed
milliseconds `nowMs() - start` observed at the timeout check. -/
structure PollTick where
  abortedAtTop : Bool
  job : Job
  elapsedMs : Nat
deriving DecidableEq

/-- The polling `wait()` from `src/resources/jobs.ts`: per iteration, throw a
plain `Error("Aborted")` when the signal is aborted, poll the job, emit
status/stage change events through `onEvent` (collected here), then: return
the job when `succeeded`; throw the typed `JobFailedError` (server error
message/code) when `failed`; throw the typed `JobCanceledError` when
`canceled`; otherwise throw a plain `Error` with the timeout message once the
elapsed time exceeds `timeoutMs`, else back off and poll again. -/
def pollWait (jobId : String) (timeoutMs : Nat) :
    List PollTick → Option String → Option String → List JobEvent × PollWaitOut
  | [], _, _ => ([], .pendingSchedule)
  | t :: rest, ls, lg =>
    if t.abortedAtTop then ([], .raised (.plainError "Aborted"))
    else
      let j := t.job
      let emitted := pollChangeEvents ls lg j
      if j.status = "succeeded" then (emitted ++ [JobEvent.terminal j], .ok j)
      else if j.status = "failed" then
        (emitted ++ [JobEvent.terminal j],
          .raised (.jobFailed jobId ((j.error.map JobError.message).getD "Job failed")
            (j.error.map JobError.code) j.requestId))
      else if j.status = "canceled" then
        (emitted ++ [JobEvent.terminal j],
          .raised (.jobCanceled jobId "Job canceled" j.requestId))
      else if timeoutMs < t.elapsedMs then
        (emitted, .raised (.plainError (waitTimeoutMessage jobId timeoutMs)))
      else
        let r := pollWait jobId timeoutMs rest (pollNextStatus ls j) (pollNextStage lg j)
        (emitted ++ r.1, r.2)

/-! ## Webhooks (`src/resources/webhooks.ts`) -/

/-- The header map built by `parseSig`: split the header on commas, each part
on `=`, keep the first two pieces when both are non-empty, trimmed; a later
write to the same key wins (entries are prepended, lookup takes the most
recent). -/
def sigEntries (h : String) : List (String × String) :=
  (jsSplit h ",").foldl
    (fun acc part =>
      match jsSplit part "=" with
      | k :: v :: _ => if k ≠ "" && v ≠ "" then (jsTrim k, jsTrim v) :: acc else acc
      | _ => acc) []

def sigGet (h k : String) : Option String := (sigEntries h).lookup k

/-- `parseSig`: the `t`/`v1` components, `none` (the
`Invalid signature format` throw) when either is missing or empty. -/
def parseSig (h : String) : Option (String × String) :=
  match sigGet h "t", sigGet h "v1" with
  | some t, some v1 => if t ≠ "" && v1 ≠ "" then some (t, v1) else none
  | some _, none => none
  | none, _ => none

/-- `timingSafeEqualHex`: length check, then an accumulated bitwise-or of the
per-character xors compared to zero (character codes are code points; the
compared strings are ASCII hex). -/
def timingSafeEqualHex (a b : String) : Bool :=
  if a.length ≠ b.length then false
  else
    ((a.toList.zip b.toList).foldl (fun r p => r ||| (p.1.toNat ^^^ p.2.toNat)) 0) == 0

/-- `headerValue`: case-insensitive lookup of the first matching header key;
an empty value counts as missing (`if (!v)`); array-valued headers are
modelled by their first element, i.e. a plain string. -/
def headerValue (headers : List (String × String)) (nm : String) : Option String :=
  match headers.find? (fun p => jsToLower p.1 = jsToLower nm) with
  | some p => if p.2 = "" then none else some p.2
  | none => none

/-- Outcome of `verifySignature`: `ok`, or a thrown `Error` with the given
message. -/
inductive VerifyResult where
  | ok
  | errorMsg (message : String)
deriving DecidableEq

/-- `verifySignature` from `src/resources/webhooks.ts`, instrumented with the
number of HMAC computations performed (second component).  `hmacHex`
abstracts the WebCrypto HMAC-SHA256; `Number(parts.t)` is modelled on integer
timestamp strings (`jsToInt?`); `nowSec` is the clock read. -/
def verifySignature (hmacHex : String → String → String)
    (payload : String) (headers : List (String × String)) (secret : String)
    (toleranceSec nowSec : Int) : VerifyResult × Nat :=
  match headerValue headers "mappa-signature" with
  | none => (.errorMsg "Missing mappa-signature header", 0)
  | some sigHeader =>
    match parseSig sigHeader with
    | none => (.errorMsg "Invalid signature format", 0)
    | some tv =>
      match jsToInt? tv.1 with
      | none => (.errorMsg "Invalid signature timestamp", 0)
      | some ts =>
        if toleranceSec < |nowSec - ts| then
          (.errorMsg "Signature timestamp outside tolerance", 0)
        else
          let expected := hmacHex secret (tv.1 ++ "." ++ payload)
          if timingSafeEqualHex expected tv.2 then (.ok, 1)
          else (.errorMsg "Invalid signature", 1)

/-! ## List helpers for the terminal-absorption invariant -/

theorem all_dropLast {α : Type} (p : α → Bool) (l : List α)
    (h : l.all p = true) : l.dropLast.all p = true := by
  rw [List.all_eq_true] at h ⊢
  intro x hx
  exact h x (List.dropLast_subset l hx)

theorem dropLast_cons_all {α : Type} (p : α → Bool) (a : α) (l : List α)
    (ha : p a = true) (hl : l.dropLast.all p = true) :
    (a :: l).dropLast.all p = true := by
  cases l with
  | nil => rfl
  | cons b m =>
    show (a :: (b :: m).dropLast).all p = true
    simp only [List.all_cons, Bool.and_eq_true]
    exact ⟨ha, hl⟩

theorem dropLast_all_append {α : Type} (p : α → Bool) (ys zs : List α)
    (hy : ys.all p = true) (hz : zs.dropLast.all p = true) :
    (ys ++ zs).dropLast.all p = true := by
  cases zs with
  | nil =>
    rw [List.append_nil]
    exact all_dropLast p ys hy
  | cons z m =>
    rw [List.dropLast_append_of_ne_nil ys (by simp)]
    simp only [List.all_append, Bool.and_eq_true]
    exact ⟨hy, hz⟩

theorem any_eq_false_of_all_not {α : Type} (p : α → Bool) (l : List α)
    (h : l.all (fun x => !p x) = true) : l.any p = false := by
  rw [List.all_eq_true] at h
  rw [List.any_eq_false]
  intro x hx
  have hb := h x hx
  simp only [Bool.not_eq_true'] at hb
  simp [hb]

/-! ## Terminal absorption of the two stream generators -/

theorem mapSSE_not_terminal (ev : JobStreamSSEEvent) (ht : ¬ev.event = "terminal")
    (je : JobEvent) (hm : mapSSEToJobEvent ev = some je) : je.isTerminal = false := by
  unfold mapSSEToJobEvent at hm
  by_cases h1 : ev.event = "status"
  · simp only [h1, if_true] at hm
    injection hm with hm'
    rw [← hm']
    rfl
  · by_cases h2 : ev.event = "stage"
    · simp only [h1, h2, if_false, if_true] at hm
      injection hm with hm'
      rw [← hm']
      rfl
    · simp only [h1, h2, ht, if_false] at hm
      injection hm with hm'
      rw [← hm']
      rfl

/-- Within one connection, the events yielded before the end are
non-terminal, and every yielded event is non-terminal unless the iteration
ended by a terminal frame (in which case the terminal event is the last
one). -/
theorem processEvents_no_terminal :
    ∀ (evs : List JobStreamSSEEvent) (lid : Option String) (r : Nat),
      ((processEvents evs lid r).1.dropLast.all (fun e => !e.isTerminal) = true)
      ∧ ((processEvents evs lid r).2.2.2 ≠ .terminal →
          (processEvents evs lid r).1.all (fun e => !e.isTerminal) = true) := by
  intro evs
  induction evs with
  | nil => intro lid r; exact ⟨rfl, fun _ => rfl⟩
  | cons ev rest ih =>
    intro lid r
    by_cases he : ev.event = "error"
    · refine ⟨?_, fun _ => ?_⟩ <;> simp [processEvents, he]
    · by_cases hh : ev.event = "heartbeat"
      · simpa [processEvents, he, hh] using ih ev.id r
      · rcases hm : mapSSEToJobEvent ev with _ | je
        · simpa [processEvents, he, hh, hm] using ih ev.id 0
        · by_cases ht : ev.event = "terminal"
          · refine ⟨?_, fun hcon => ?_⟩
            · simp [processEvents, he, hh, hm, ht]
            · simp [processEvents, he, hh, hm, ht] at hcon
          · have hje : (!je.isTerminal) = true := by
              rw [mapSSE_not_terminal ev ht je hm]; rfl
            have iht := ih ev.id 0
            refine ⟨?_, fun hcon => ?_⟩
            · simpa [processEvents, he, hh, hm, ht] using
                dropLast_cons_all _ je _ hje iht.1
            · have hcon' : (processEvents rest ev.id 0).2.2.2 ≠ .terminal := by
                simpa [processEvents, he, hh, hm, ht] using hcon
              simpa [processEvents, he, hh, hm, ht, hje] using iht.2 hcon'

/-- Terminal absorption for the SSE stream loop: any terminal event is the
last one yielded, and a run that yielded a terminal event completed. -/
theorem streamLoop_terminal_absorption :
    ∀ (atts : List ConnAttempt) (jobId : String) (lid : Option String) (r : Nat),
      ((streamLoop jobId lid r atts).1.dropLast.all (fun e => !e.isTerminal) = true)
      ∧ ((streamLoop jobId lid r atts).1.any JobEvent.isTerminal = true →
          (streamLoop jobId lid r atts).2 = .completed) := by
  intro atts
  induction atts with
  | nil =>
    intro jobId lid r
    refine ⟨?_, fun hcon => ?_⟩
    · by_cases hr : r < 3 <;> simp [streamLoop, hr]
    · by_cases hr : r < 3 <;> simp [streamLoop, hr] at hcon
  | cons a rest ih =>
    intro jobId lid r
    by_cases hr : r < 3
    · rcases hp : processEvents a.events lid r with ⟨ys, lid', r', e⟩
      have hspec := processEvents_no_terminal a.events lid r
      rw [hp] at hspec
      cases e with
      | terminal =>
        refine ⟨?_, fun _ => ?_⟩
        · simpa [streamLoop, hr, hp] using hspec.1
        · simp [streamLoop, hr, hp]
      | errorFrame msg code =>
        have hall : ys.all (fun x => !x.isTerminal) = true := hspec.2 (by simp)
        have hany : ys.any JobEvent.isTerminal = false := any_eq_false_of_all_not _ _ hall
        cases ha : a.abortedAtCatch with
        | true =>
          refine ⟨?_, fun hcon => ?_⟩
          · simpa [streamLoop, hr, hp, ha] using all_dropLast _ ys hall
          · simp [streamLoop, hr, hp, ha, hany] at hcon
        | false =>
          by_cases hb : r' + 1 ≥ 3
          · refine ⟨?_, fun hcon => ?_⟩
            · simpa [streamLoop, hr, hp, ha, hb] using all_dropLast _ ys hall
            · simp [streamLoop, hr, hp, ha, hb, hany] at hcon
          · have iht := ih jobId lid' (r' + 1)
            refine ⟨?_, fun hcon => ?_⟩
            · simpa [streamLoop, hr, hp, ha, hb] using
                dropLast_all_append _ ys _ hall iht.1
            · have hcon' : (streamLoop jobId lid' (r' + 1) rest).1.any JobEvent.isTerminal = true := by
                simpa [streamLoop, hr, hp, ha, hb, List.any_append, hany] using hcon
              simpa [streamLoop, hr, hp, ha, hb] using iht.2 hcon'
      | ended =>
        have hall : ys.all (fun x => !x.isTerminal) = true := hspec.2 (by simp)
        have hany : ys.any JobEvent.isTerminal = false := any_eq_false_of_all_not _ _ hall
        cases hend : a.ending with
        | exn err =>
          cases ha : a.abortedAtCatch with
          | true =>
            refine ⟨?_, fun hcon => ?_⟩
            · simpa [streamLoop, hr, hp, hend, ha] using all_dropLast _ ys hall
            · simp [streamLoop, hr, hp, hend, ha, hany] at hcon
          | false =>
            by_cases hb : r' + 1 ≥ 3
            · refine ⟨?_, fun hcon => ?_⟩
              · simpa [streamLoop, hr, hp, hend, ha, hb] using all_dropLast _ ys hall
              · simp [streamLoop, hr, hp, hend, ha, hb, hany] at hcon
            · have iht := ih jobId lid' (r' + 1)
              refine ⟨?_, fun hcon => ?_⟩
              · simpa [streamLoop, hr, hp, hend, ha, hb] using
                  dropLast_all_append _ ys _ hall iht.1
              · have hcon' : (streamLoop jobId lid' (r' + 1) rest).1.any JobEvent.isTerminal = true := by
                  simpa [streamLoop, hr, hp, hend, ha, hb, List.any_append, hany] using hcon
                simpa [streamLoop, hr, hp, hend, ha, hb] using iht.2 hcon'
        | clean =>
          have iht := ih jobId lid' (r' + 1)
          refine ⟨?_, fun hcon => ?_⟩
          · simpa [streamLoop, hr, hp, hend] using
              dropLast_all_append _ ys _ hall iht.1
          · have hcon' : (streamLoop jobId lid' (r' + 1) rest).1.any JobEvent.isTerminal = true := by
              simpa [streamLoop, hr, hp, hend, List.any_append, hany] using hcon
            simpa [streamLoop, hr, hp, hend] using iht.2 hcon'
    · refine ⟨?_, fun hcon => ?_⟩
      · simp [streamLoop, hr]
      · simp [streamLoop, hr] at hcon

theorem pollChangeEvents_no_terminal (ls lg : Option String) (j : Job) :
    (pollChangeEvents ls lg j).all (fun e => !e.isTerminal) = true := by
  unfold pollChangeEvents
  rcases j.stage with _ | stg
  · by_cases h1 : ls ≠ some j.status <;> simp [h1, JobEvent.isTerminal]
  · by_cases h1 : ls ≠ some j.status <;>
      by_cases h2 : (stg ≠ "" && lg ≠ some stg) = true <;>
        simp [h1, h2, JobEvent.isTerminal] <;>
          (intro x _ _ hx; subst hx; rfl)

/-- Terminal absorption for the polling stream. -/
theorem pollStream_terminal_absorption :
    ∀ (sched : List (Bool × Job)) (ls lg : Option String),
      ((pollStream sched ls lg).1.dropLast.all (fun e => !e.isTerminal) = true)
      ∧ ((pollStream sched ls lg).1.any JobEvent.isTerminal = true →
          (pollStream sched ls lg).2 = .finished) := by
  intro sched
  induction sched with
  | nil =>
    intro ls lg
    exact ⟨rfl, fun h => by simp [pollStream] at h⟩
  | cons t rest ih =>
    rcases t with ⟨aborted, j⟩
    intro ls lg
    cases aborted with
    | true => exact ⟨by simp [pollStream], fun _ => by simp [pollStream]⟩
    | false =>
      have hem := pollChangeEvents_no_terminal ls lg j
      have hemany := any_eq_false_of_all_not _ _ hem
      by_cases ht : isTerminalStatus j.status = true
      · refine ⟨?_, fun _ => ?_⟩
        · have : (pollChangeEvents ls lg j ++ [JobEvent.terminal j]).dropLast.all
              (fun e => !e.isTerminal) = true := by
            rw [List.dropLast_concat]
            exact hem
          simpa [pollStream, ht] using this
        · simp [pollStream, ht]
      · have iht := ih (pollNextStatus ls j) (pollNextStage lg j)
        refine ⟨?_, fun hcon => ?_⟩
        · simpa [pollStream, ht] using dropLast_all_append _ _ _ hem iht.1
        · have hcon' : ((pollStream rest (pollNextStatus ls j) (pollNextStage lg j)).1.any
              JobEvent.isTerminal) = true := by
            simpa [pollStream, ht, List.any_append, hemany] using hcon
          simpa [pollStream, ht] using iht.2 hcon'

/-! ## Frame decoder lemmas -/

theorem any_eq_true_of_all_not_false {α : Type} (p : α → Bool) (l : List α)
    (h : l.all (fun x => !p x) = false) : l.any p = true := by
  cases hv : l.any p
  · exfalso
    have hall : l.all (fun x => !p x) = true := by
      rw [List.all_eq_true]
      intro x hx
      rw [List.any_eq_false] at hv
      have hb := hv x hx
      cases hpx : p x
      · rfl
      · exact absurd hpx hb
    rw [hall] at h
    exact Bool.noConfusion h
  · rfl

theorem append_newline_ne_empty (a b : String) : a ++ "\n" ++ b ≠ "" := by
  intro h
  have hlen := congrArg String.length h
  have h1 : ("\n" : String).length = 1 := rfl
  have h0 : ("" : String).length = 0 := rfl
  rw [String.length_append, String.length_append, h1, h0] at hlen
  omega

/-- One line of the frame parser leaves the assembled data empty iff it was
empty before and the line is not a non-blank data line. -/
theorem sseLineStep_data_empty (st : Option String × String × String) (l : String) :
    ((sseLineStep st l).2.2 = "") ↔ (st.2.2 = "" ∧ readsAsNonBlankData l = false) := by
  unfold sseLineStep readsAsNonBlankData
  by_cases h1 : jsStartsWith l "id:" = true
  · simp [h1]
  · by_cases h2 : jsStartsWith l "event:" = true
    · simp [h1, h2]
    · by_cases h3 : jsStartsWith l "data:" = true
      · by_cases hd : st.2.2 = ""
        · simp only [h1, h2, h3, hd, if_true, if_false, Bool.not_true, Bool.not_false]
          by_cases hp : jsTrim (jsDrop l 5) = "" <;> simp [hd, hp]
        · simp only [h1, h2, h3, if_true, if_false, Bool.not_true, Bool.not_false]
          have hne : ¬(st.2.2 ++ "\n" ++ jsTrim (jsDrop l 5) = "") :=
            append_newline_ne_empty st.2.2 (jsTrim (jsDrop l 5))
          simp [hd, hne]
      · simp [h1, h2, h3]

/-- The assembled data of a frame is empty iff no line of the frame is a
non-blank data line. -/
theorem foldl_sseLineStep_data_empty :
    ∀ (lines : List String) (st : Option String × String × String),
      ((lines.foldl sseLineStep st).2.2 = "") ↔
        (st.2.2 = "" ∧ lines.all (fun l => !readsAsNonBlankData l) = true) := by
  intro lines
  induction lines with
  | nil => intro st; simp
  | cons l rest ih =>
    intro st
    rw [List.foldl_cons, ih (sseLineStep st l), List.all_cons, Bool.and_eq_true,
      Bool.not_eq_true']
    constructor
    · rintro ⟨hempty, hall⟩
      have hstep := (sseLineStep_data_empty st l).mp hempty
      exact ⟨hstep.1, hstep.2, hall⟩
    · rintro ⟨hempty, hline, hall⟩
      exact ⟨(sseLineStep_data_empty st l).mpr ⟨hempty, hline⟩, hall⟩

theorem filterMap_eq_dropLast_append {α β : Type} (f : α → Option β) (d : α)
    (hd : f d = none) (l : List α) :
    l.filterMap f = l.dropLast.filterMap f ++ (f (l.getLastD d)).toList := by
  induction l using List.reverseRecOn with
  | nil => simp [hd]
  | append_singleton l x ih =>
    rw [List.filterMap_append l [x] f, List.dropLast_concat, List.getLastD_concat]
    cases hx : f x
    · simp [hx]
    · simp [hx]

/-- The end-of-stream flush equals one application of the per-frame step. -/
theorem parseSSEStream_nil_eq_frame (jp : String → Option JsonVal) (x : String) :
    parseSSEStream jp x [] = (parseSSEFrame jp x).toList := by
  by_cases h : jsTrim x = "" <;> simp [parseSSEStream, parseSSEFrame, h]

/-! ## Concrete fixtures used by witnesses and counterexamples -/

def jobRunning : Job := { id := "j1", status := "running" }

def jobSucceeded : Job := { id := "j1", status := "succeeded", reportId := some "r1" }

/-- A job-stream SSE frame with `event: error` as served for an unknown job. -/
def errorFrame : JobStreamSSEEvent :=
  { id := some "1", event := "error",
    data := { job := jobRunning,
              error := some { code := "not_found", message := "Job not found" } } }

def terminalSucceededFrame : JobStreamSSEEvent :=
  { id := some "2", event := "terminal", data := { job := jobSucceeded } }

/-- A terminal frame whose job status is still `running` (the defensively
handled "should not happen" case). -/
def terminalRunningFrame : JobStreamSSEEvent :=
  { id := some "2", event := "terminal", data := { job := jobRunning } }

/-! ## Claim theorems -/

/-- C6: a request marked `retryable: true` that receives a 422 (resp. 401)
response makes exactly one network attempt — the loop consumes only the first
scheduled attempt and performs no backoff sleep, whatever the remaining
schedule — and throws the classified `ValidationError` (resp. `AuthError`). -/
theorem c6_non_retryable_statuses (maxRetries : Nat) (jf : Nat → Nat)
    (rid ra : Option String) (parsed : JsonVal) (rest : List ReqAttempt) :
    requestLoop true maxRetries jf 1 (⟨false, .httpError 422 rid ra parsed⟩ :: rest)
      = (.raised (.apiE (coerceApiError 422 rid ra parsed)), [])
    ∧ (coerceApiError 422 rid ra parsed).kind = .validationError
    ∧ requestLoop true maxRetries jf 1 (⟨false, .httpError 401 rid ra parsed⟩ :: rest)
      = (.raised (.apiE (coerceApiError 401 rid ra parsed)), [])
    ∧ (coerceApiError 401 rid ra parsed).kind = .authError := by
  refine ⟨?_, ?_, ?_, ?_⟩ <;>
    simp [requestLoop, coerceApiError, shouldRetry, ApiErr.kind, ApiErr.status]

/-- C5: a retryable request answered by a 429 carrying `Retry-After: 5`
sleeps exactly 5000 ms (the parsed header in milliseconds) before the next
attempt, for every jitter function — the delay is neither jittered nor the
default exponential backoff — and then continues with attempt 2. -/
theorem c5_retry_after_honored (maxRetries : Nat) (jf : Nat → Nat)
    (rid : Option String) (parsed : JsonVal) (rest : List ReqAttempt)
    (h : 1 ≤ maxRetries) :
    parseRetryAfterMs (some "5") = some 5000
    ∧ requestLoop true maxRetries jf 1
        (⟨false, .httpError 429 rid (some "5") parsed⟩ :: rest)
      = ((requestLoop true maxRetries jf 2 rest).1,
          5000 :: (requestLoop true maxRetries jf 2 rest).2) := by
  have h5 : parseRetryAfterMs (some "5") = some 5000 := by decide
  have hd : decide (1 ≤ maxRetries) = true := decide_eq_true h
  refine ⟨h5, ?_⟩
  simp [requestLoop, coerceApiError, shouldRetry, h5, hd]

theorem c5_retry_after_honored_witness :
    1 ≤ 1
    ∧ (parseRetryAfterMs (some "5") = some 5000
      ∧ requestLoop true 1 (fun _ => 0) 1
          [⟨false, .httpError 429 none (some "5") .jnull⟩]
        = ((requestLoop true 1 (fun _ => 0) 2 []).1,
            5000 :: (requestLoop true 1 (fun _ => 0) 2 []).2)) :=
  ⟨Nat.le_refl 1, c5_retry_after_honored 1 (fun _ => 0) none .jnull [] (Nat.le_refl 1)⟩

/-- C9: when the `mappa-signature` header has no usable `v1` component,
`verifySignature` rejects with the `Invalid signature format` error and
performs zero HMAC computations (the result does not depend on the HMAC
function at all). -/
theorem c9_missing_v1_rejected_before_hmac
    (hmac : String → String → String) (payload : String)
    (headers : List (String × String)) (secret : String)
    (toleranceSec nowSec : Int) (h : String)
    (hh : headerValue headers "mappa-signature" = some h)
    (hv : sigGet h "v1" = none) :
    verifySignature hmac payload headers secret toleranceSec nowSec
      = (.errorMsg "Invalid signature format", 0) := by
  have hp : parseSig h = none := by
    unfold parseSig
    rw [hv]
    cases sigGet h "t" <;> rfl
  simp [verifySignature, hh, hp]

theorem c9_missing_v1_rejected_before_hmac_witness :
    headerValue [("Mappa-Signature", "t=123")] "mappa-signature" = some "t=123"
    ∧ sigGet "t=123" "v1" = none
    ∧ verifySignature (fun _ _ => "ff") "body" [("Mappa-Signature", "t=123")] "sec" 300 123
        = (.errorMsg "Invalid signature format", 0) :=
  ⟨by decide, by decide,
    c9_missing_v1_rejected_before_hmac (fun _ _ => "ff") "body"
      [("Mappa-Signature", "t=123")] "sec" 300 123 "t=123" (by decide) (by decide)⟩

/-- C4: divergence of the two `wait` implementations on the
no-terminal/timeout path.  The SSE `wait` raises the typed `JobFailedError`
with the timeout message (here: the stream ends after a terminal frame whose
status is still `running`, the defensively handled case), but the polling
`wait` raises an untyped `Error` with the same message — not a job-failure
error — contradicting the error taxonomy (and the repository's rule of
throwing the typed classes of `src/errors.ts`). -/
theorem c4_wait_timeout_error_kinds :
    wait "j1" 200 [⟨[terminalRunningFrame], .clean, false⟩]
      = .raised (.jobFailed "j1" "Timed out waiting for job j1 after 200ms" none none)
    ∧ (pollWait "j1" 200 [⟨false, jobRunning, 250⟩] none none).2
      = .raised (.plainError "Timed out waiting for job j1 after 200ms") :=
  ⟨rfl, rfl⟩

/-- C8 counterexample: the frame `data:` (a frame with a data line whose
payload is empty) is a complete blank-line-delimited frame of the input, yet
the decoder yields nothing for it — the claim's "exactly one parsed event per
frame that contains at least one data line" fails on data lines with blank
payloads. -/
theorem c8_blank_data_frame_cex :
    jsSplit "data:\n\n" "\n\n" = ["data:", ""]
    ∧ hasDataLine "data:" = true
    ∧ parseSSEStream (fun _ => none) "" ["data:\n\n"] = [] :=
  ⟨rfl, rfl, rfl⟩

/-- C8 (amended): over a single delivered chunk the decoder emits exactly the
frames of the blank-line split, each passed through the per-frame step
(including the leftover last piece, flushed at stream end); a non-blank frame
parses to an event iff it has a data line with a non-blank payload (frames
with no data lines, or with only blank data payloads, are discarded); and at
stream end a non-blank leftover buffer is parsed as a final frame. -/
theorem c8_frame_decoder_behavior :
    (∀ (jp : String → Option JsonVal) (s : String),
        parseSSEStream jp "" [s] = (jsSplit s "\n\n").filterMap (parseSSEFrame jp))
    ∧ (∀ (jp : String → Option JsonVal) (t : String), jsTrim t ≠ "" →
        (parseSSEFrame jp t ≠ none ↔ hasNonBlankDataLine t = true))
    ∧ (∀ (jp : String → Option JsonVal) (buffer : String),
        parseSSEStream jp buffer []
          = if jsTrim buffer = "" then [] else (parseSSEEvent jp buffer).toList) := by
  refine ⟨fun jp s => ?_, fun jp t ht => ?_, fun jp buffer => rfl⟩
  · have hempty : parseSSEFrame jp "" = none := rfl
    have h1 : parseSSEStream jp "" [s]
        = (jsSplit s "\n\n").dropLast.filterMap (parseSSEFrame jp)
          ++ parseSSEStream jp ((jsSplit s "\n\n").getLastD "") [] := rfl
    rw [h1, parseSSEStream_nil_eq_frame]
    exact (filterMap_eq_dropLast_append (parseSSEFrame jp) "" hempty _).symm
  · have hframe : parseSSEFrame jp t = parseSSEEvent jp t := by
      unfold parseSSEFrame
      rw [if_neg ht]
    rw [hframe]
    have hfold := foldl_sseLineStep_data_empty (jsSplit t "\n") (none, "message", "")
    constructor
    · intro hne
      by_cases h : ((jsSplit t "\n").foldl sseLineStep (none, "message", "")).2.2 = ""
      · exact absurd (by simp [parseSSEEvent, h]) hne
      · unfold hasNonBlankDataLine
        have hnc : ¬(((none, "message", "") :
            Option String × String × String).2.2 = ""
            ∧ (jsSplit t "\n").all (fun l => !readsAsNonBlankData l) = true) := by
          intro hcontra
          exact h (hfold.mpr hcontra)
        have hall : (jsSplit t "\n").all (fun l => !readsAsNonBlankData l) = false := by
          cases hv : (jsSplit t "\n").all (fun l => !readsAsNonBlankData l)
          · rfl
          · exact absurd ⟨rfl, hv⟩ hnc
        exact any_eq_true_of_all_not_false _ _ hall
    · intro hany
      by_cases h : ((jsSplit t "\n").foldl sseLineStep (none, "message", "")).2.2 = ""
      · exfalso
        have hall := (hfold.mp h).2
        have hanyf := any_eq_false_of_all_not _ _ hall
        unfold hasNonBlankDataLine at hany
        rw [hanyf] at hany
        exact Bool.noConfusion hany
      · simp [parseSSEEvent, h]

theorem c8_frame_decoder_behavior_witness :
    jsTrim "data: x" ≠ ""
    ∧ (parseSSEFrame (fun _ => none) "data: x" ≠ none
        ↔ hasNonBlankDataLine "data: x" = true) :=
  ⟨by decide, c8_frame_decoder_behavior.2.1 (fun _ => none) "data: x" (by decide)⟩

def c10Envelope : JsonVal :=
  .jobj [("code", .jstr "insufficient_credits"), ("message", .jstr "m"),
         ("required", .jnum 7)]

/-- C10 counterexample: a 402 body in the top-level envelope shape carrying
`code: "insufficient_credits"` and a stray top-level `required: 7`, with no
`details` member.  The claim says `required` defaults to 0 when the
envelope's details are absent; the code instead falls back to the whole
parsed body and reads `required = 7` from it (while `available`, absent from
the body too, does come out as 0). -/
theorem c10_required_from_parsed_body_cex :
    hasKey c10Envelope "details" = false
    ∧ envCode c10Envelope = some "insufficient_credits"
    ∧ (coerceApiError 402 none none c10Envelope).requiredJson = some (.jnum 7)
    ∧ (coerceApiError 402 none none c10Envelope).availableJson = some (.jnum 0) :=
  ⟨rfl, rfl, rfl, rfl⟩

/-- C10 (amended): a 402 whose envelope code is `insufficient_credits` is
classified as `InsufficientCreditsError`; its `required`/`available` are read
(0 when absent or null) from the error's `details` value, which is the
envelope's `details` member when present and otherwise the whole parsed
body.  A 402 without that code is a generic `ApiError`.  The last conjunct
instantiates the normal nested envelope with a `details` object. -/
theorem c10_insufficient_credits_classification (rid ra : Option String)
    (parsed : JsonVal) :
    (envCode parsed = some "insufficient_credits" →
      coerceApiError 402 rid ra parsed
        = .insufficientCredits 402 (envMessage 402 parsed) (envCode parsed) rid
            (nullishZero (jget? (envDetails parsed) "required"))
            (nullishZero (jget? (envDetails parsed) "available"))
            (envDetails parsed))
    ∧ (envCode parsed ≠ some "insufficient_credits" →
        (coerceApiError 402 rid ra parsed).kind = .apiError)
    ∧ (∀ req avl : Int, ∀ ms : String,
        coerceApiError 402 rid ra
            (.jobj [("error",
              .jobj [("code", .jstr "insufficient_credits"), ("message", .jstr ms),
                     ("details",
                       .jobj [("required", .jnum req), ("available", .jnum avl)])])])
          = .insufficientCredits 402 ms (some "insufficient_credits") rid
              (.jnum req) (.jnum avl)
              (.jobj [("required", .jnum req), ("available", .jnum avl)])) := by
  refine ⟨fun h => ?_, fun h => ?_, fun req avl ms => ?_⟩
  · simp [coerceApiError, h]
  · simp [coerceApiError, h, ApiErr.kind]
  · rfl

def c10WitnessEnvelope : JsonVal :=
  .jobj [("error",
    .jobj [("code", .jstr "insufficient_credits"), ("message", .jstr "m"),
           ("details", .jobj [("required", .jnum 3), ("available", .jnum 1)])])]

/-- C1 counterexample: a stream whose first connection delivers an `error`
frame and whose second delivers a terminal frame COMPLETES after a
reconnection — the `MappaError` thrown for the error frame is caught by the
reconnect handler and retried like any other failure, not raised immediately
with no retry as the claim states. -/
theorem c1_error_frame_is_retried_cex :
    streamLoop "j1" none 0
        [{ events := [errorFrame], ending := .clean, abortedAtCatch := false },
         { events := [terminalSucceededFrame], ending := .clean, abortedAtCatch := false }]
      = ([JobEvent.terminal jobSucceeded], .completed) := rfl

/-- C1 (amended): an `error` SSE frame makes `stream()` throw a `MappaError`
carrying the server code/message, but that throw lands in the generic catch:
(i) a `MappaError` escapes a stream run only when some attempt observed the
signal aborted; (ii) with the signal not aborted, an error frame either
exhausts the budget — raising a `StreamError` whose cause is that
`MappaError` — or backs off and reconnects, continuing the loop. -/
theorem c1_error_frame_reconnect_behavior :
    (∀ jobId lid r (atts : List ConnAttempt) msg code,
        (streamLoop jobId lid r atts).2 = .raised (.mappa msg code) →
        atts.any (fun a => a.abortedAtCatch) = true)
    ∧ (∀ jobId lid r (a : ConnAttempt) (rest : List ConnAttempt) ys lid' r' msg code,
        r < 3 →
        a.abortedAtCatch = false →
        processEvents a.events lid r = (ys, lid', r', .errorFrame msg code) →
        streamLoop jobId lid r (a :: rest)
          = if r' + 1 ≥ 3 then
              (ys, .raised (.streamFailure jobId (connFailMessage jobId) lid' (r' + 1)
                (some (.mappa msg code))))
            else
              (ys ++ (streamLoop jobId lid' (r' + 1) rest).1,
                (streamLoop jobId lid' (r' + 1) rest).2)) := by
  constructor
  · intro jobId lid r atts
    induction atts generalizing lid r with
    | nil =>
      intro msg code h
      by_cases hr : r < 3 <;> simp [streamLoop, hr] at h
    | cons a rest ih =>
      intro msg code h
      by_cases hr : r < 3
      · rcases hp : processEvents a.events lid r with ⟨ys, lid', r', e⟩
        simp only [streamLoop, hr, if_true, hp] at h
        cases e with
        | terminal => simp at h
        | errorFrame m c =>
          cases ha : a.abortedAtCatch with
          | true => simp [List.any_cons, ha]
          | false =>
            rw [ha] at h
            by_cases hb : r' + 1 ≥ 3
            · simp [hb] at h
            · simp only [hb, Bool.false_eq_true, if_false] at h
              have := ih lid' (r' + 1) msg code h
              simp [List.any_cons, this]
        | ended =>
          cases hend : a.ending with
          | exn err =>
            rw [hend] at h
            cases ha : a.abortedAtCatch with
            | true => simp [List.any_cons, ha]
            | false =>
              rw [ha] at h
              by_cases hb : r' + 1 ≥ 3
              · simp [hb] at h
              · simp only [hb, Bool.false_eq_true, if_false] at h
                have := ih lid' (r' + 1) msg code h
                simp [List.any_cons, this]
          | clean =>
            rw [hend] at h
            simp only [] at h
            have := ih lid' (r' + 1) msg code h
            simp [List.any_cons, this]
      · simp [streamLoop, hr] at h
  · intro jobId lid r a rest ys lid' r' msg code hr ha hp
    simp only [streamLoop, hr, if_true, hp, ha]
    by_cases hb : r' + 1 ≥ 3 <;> simp [hb]

theorem c1_error_frame_reconnect_behavior_witness :
    (streamLoop "j1" none 0 [{ events := [errorFrame], ending := .clean, abortedAtCatch := true }]).2
        = .raised (.mappa "Job not found" (some "not_found"))
    ∧ [ConnAttempt.mk [errorFrame] .clean true].any (fun a => a.abortedAtCatch) = true :=
  ⟨rfl,
    c1_error_frame_reconnect_behavior.1 "j1" none 0
      [{ events := [errorFrame], ending := .clean, abortedAtCatch := true }]
      "Job not found" (some "not_found") rfl⟩

/-- C2: terminal absorption for both stream generators.  In every SSE
`stream()` run and every polling `stream()` run, every yielded event other
than the last is non-terminal (so nothing is ever yielded after a terminal
event), and a run that yielded a terminal event completed (the generator
returned rather than raising or reconnecting). -/
theorem c2_terminal_absorption :
    (∀ (jobId : String) (lid : Option String) (r : Nat) (atts : List ConnAttempt),
        (streamLoop jobId lid r atts).1.dropLast.all (fun e => !e.isTerminal) = true)
    ∧ (∀ (jobId : String) (lid : Option String) (r : Nat) (atts : List ConnAttempt),
        (streamLoop jobId lid r atts).1.any JobEvent.isTerminal = true →
        (streamLoop jobId lid r atts).2 = .completed)
    ∧ (∀ (sched : List (Bool × Job)) (ls lg : Option String),
        (pollStream sched ls lg).1.dropLast.all (fun e => !e.isTerminal) = true)
    ∧ (∀ (sched : List (Bool × Job)) (ls lg : Option String),
        (pollStream sched ls lg).1.any JobEvent.isTerminal = true →
        (pollStream sched ls lg).2 = .finished) :=
  ⟨fun jobId lid r atts => (streamLoop_terminal_absorption atts jobId lid r).1,
    fun jobId lid r atts => (streamLoop_terminal_absorption atts jobId lid r).2,
    fun sched ls lg => (pollStream_terminal_absorption sched ls lg).1,
    fun sched ls lg => (pollStream_terminal_absorption sched ls lg).2⟩

theorem c2_terminal_absorption_witness :
    ((streamLoop "j1" none 0
        [{ events := [terminalSucceededFrame], ending := .clean, abortedAtCatch := false }]).1.any
          JobEvent.isTerminal = true)
    ∧ (streamLoop "j1" none 0
        [{ events := [terminalSucceededFrame], ending := .clean, abortedAtCatch := false }]).2
      = .completed
    ∧ ((pollStream [(false, jobSucceeded)] none none).1.any JobEvent.isTerminal = true)
    ∧ (pollStream [(false, jobSucceeded)] none none).2 = .finished :=
  ⟨rfl,
    c2_terminal_absorption.2.1 "j1" none 0
      [{ events := [terminalSucceededFrame], ending := .clean, abortedAtCatch := false }] rfl,
    rfl,
    c2_terminal_absorption.2.2.2 [(false, jobSucceeded)] none none rfl⟩

/-- C3: cancellation precedence over retries.  In the SSE stream loop:
a reconnection attempt that starts with the signal already aborted (which is
what an abort during a backoff sleep leads to: `streamSSE`'s pre-check throws
the abort error before any network activity) raises the abort error, and any
connection exception caught with the signal aborted is rethrown as-is —
in neither case a stream-failure error.  In `Transport.request`: the
pre-attempt check raises the abort error with no fetch, no sleep and no
retry, and an abort mid-flight is rethrown without retry — never a
retry-exhausted error. -/
theorem c3_abort_precedence :
    (∀ jobId lid r (rest : List ConnAttempt), r < 3 →
        streamLoop jobId lid r
            ({ events := [], ending := .exn .abort, abortedAtCatch := true } :: rest)
          = ([], .raised .abort))
    ∧ (∀ jobId lid r (a : ConnAttempt) (rest : List ConnAttempt) ys lid' r' e,
        r < 3 → a.abortedAtCatch = true → a.ending = .exn e →
        processEvents a.events lid r = (ys, lid', r', .ended) →
        streamLoop jobId lid r (a :: rest) = (ys, .raised e))
    ∧ (∀ (retryable : Bool) (maxRetries : Nat) (jf : Nat → Nat) (attempt : Nat)
        (o : FetchOutcome) (rest : List ReqAttempt),
        requestLoop retryable maxRetries jf attempt
            ({ abortedBefore := true, outcome := o } :: rest)
          = (.raised .abort, []))
    ∧ (∀ (retryable : Bool) (maxRetries : Nat) (jf : Nat → Nat) (attempt : Nat)
        (rest : List ReqAttempt),
        requestLoop retryable maxRetries jf attempt
            ({ abortedBefore := false, outcome := .abortedDuring } :: rest)
          = (.raised .abort, [])) := by
  refine ⟨fun jobId lid r rest hr => ?_, fun jobId lid r a rest ys lid' r' e hr ha he hp => ?_,
    fun retryable maxRetries jf attempt o rest => ?_,
    fun retryable maxRetries jf attempt rest => ?_⟩
  · simp [streamLoop, hr, processEvents]
  · simp only [streamLoop, hr, if_true, hp, he, ha]
  · simp [requestLoop]
  · simp [requestLoop]

theorem c3_abort_precedence_witness :
    (0 < 3
      ∧ streamLoop "j1" none 0
          [{ events := [], ending := .exn .abort, abortedAtCatch := true }]
        = ([], .raised .abort))
    ∧ (2 < 3
      ∧ streamLoop "j1" none 2
          [{ events := [], ending := .exn .network, abortedAtCatch := true }]
        = ([], .raised .network))
    ∧ requestLoop true 2 (fun _ => 0) 1 [{ abortedBefore := true, outcome := .netError }]
        = (.raised .abort, [])
    ∧ requestLoop true 2 (fun _ => 0) 1 [{ abortedBefore := false, outcome := .abortedDuring }]
        = (.raised .abort, []) :=
  ⟨⟨by decide, c3_abort_precedence.1 "j1" none 0 [] (by decide)⟩,
    ⟨by decide,
      c3_abort_precedence.2.1 "j1" none 2
        { events := [], ending := .exn .network, abortedAtCatch := true } [] [] none 2
        .network (by decide) rfl rfl rfl⟩,
    c3_abort_precedence.2.2.1 true 2 (fun _ => 0) 1 .netError [],
    c3_abort_precedence.2.2.2 true 2 (fun _ => 0) 1 []⟩

/-- C7: on the first effective terminal event of a wait (any earlier yielded
events being non-stopping), `wait()` returns the job when its status is
`succeeded`; rejects with a `JobFailedError` whose message and code are the
server-provided `job.error` message/code and which carries the job's request
id, when `failed`; and rejects with a `JobCanceledError` carrying the job's
request id, when `canceled`. -/
theorem c7_wait_terminal_dispatch (jobId : String) (timeoutMs : Nat)
    (ys : List JobEvent) (j : Job) (rest : List JobEvent) (out : StreamOut)
    (hys : ys.all (fun e => !stopsWait e) = true) :
    (j.status = "succeeded" →
      waitConsume jobId timeoutMs (ys ++ JobEvent.terminal j :: rest) out = .ok j)
    ∧ (∀ er, j.status = "failed" → j.error = some er →
        waitConsume jobId timeoutMs (ys ++ JobEvent.terminal j :: rest) out
          = .raised (.jobFailed jobId er.message (some er.code) j.requestId))
    ∧ (j.status = "canceled" →
        waitConsume jobId timeoutMs (ys ++ JobEvent.terminal j :: rest) out
          = .raised (.jobCanceled jobId "Job canceled" j.requestId)) := by
  induction ys with
  | nil =>
    refine ⟨fun h => ?_, fun er h he => ?_, fun h => ?_⟩
    · simp [waitConsume, h]
    · simp [waitConsume, h, he]
    · simp [waitConsume, h]
  | cons e ys ih =>
    simp only [List.all_cons, Bool.and_eq_true] at hys
    have ihh := ih hys.2
    have hse : stopsWait e = false := by
      cases he' : stopsWait e
      · rfl
      · rw [he'] at hys
        simp at hys
    cases e with
    | terminal j' =>
      have hs1 : ¬ j'.status = "succeeded" := by
        intro hq; simp [stopsWait, hq] at hse
      have hs2 : ¬ j'.status = "failed" := by
        intro hq; simp [stopsWait, hq] at hse
      have hs3 : ¬ j'.status = "canceled" := by
        intro hq; simp [stopsWait, hq] at hse
      refine ⟨fun h => ?_, fun er h he => ?_, fun h => ?_⟩
      · simpa [waitConsume, hs1, hs2, hs3] using ihh.1 h
      · simpa [waitConsume, hs1, hs2, hs3] using ihh.2.1 er h he
      · simpa [waitConsume, hs1, hs2, hs3] using ihh.2.2 h
    | status j' =>
      exact ⟨fun h => by simpa [waitConsume] using ihh.1 h,
        fun er h he => by simpa [waitConsume] using ihh.2.1 er h he,
        fun h => by simpa [waitConsume] using ihh.2.2 h⟩
    | stage st p j' =>
      exact ⟨fun h => by simpa [waitConsume] using ihh.1 h,
        fun er h he => by simpa [waitConsume] using ihh.2.1 er h he,
        fun h => by simpa [waitConsume] using ihh.2.2 h⟩
    | log m ts =>
      exact ⟨fun h => by simpa [waitConsume] using ihh.1 h,
        fun er h he => by simpa [waitConsume] using ihh.2.1 er h he,
        fun h => by simpa [waitConsume] using ihh.2.2 h⟩

def jobFailed1 : Job :=
  { id := "j1", status := "failed",
    error := some { code := "processing_failed", message := "boom" },
    requestId := some "req_1" }

theorem c7_wait_terminal_dispatch_witness :
    [JobEvent.status jobRunning].all (fun e => !stopsWait e) = true
    ∧ jobFailed1.status = "failed"
    ∧ jobFailed1.error = some { code := "processing_failed", message := "boom" }
    ∧ waitConsume "j1" 200
        ([JobEvent.status jobRunning] ++ JobEvent.terminal jobFailed1 :: []) .completed
      = .raised (.jobFailed "j1" "boom" (some "processing_failed") (some "req_1")) :=
  ⟨rfl, rfl, rfl,
    (c7_wait_terminal_dispatch "j1" 200 [JobEvent.status jobRunning] jobFailed1 []
      .completed rfl).2.1 { code := "processing_failed", message := "boom" } rfl rfl⟩

theorem c10_insufficient_credits_classification_witness :
    envCode c10WitnessEnvelope = some "insufficient_credits"
    ∧ coerceApiError 402 none none c10WitnessEnvelope
        = .insufficientCredits 402 "m" (some "insufficient_credits") none
            (.jnum 3) (.jnum 1)
            (.jobj [("required", .jnum 3), ("available", .jnum 1)]) :=
  ⟨rfl,
    Eq.trans
      ((c10_insufficient_credits_classification none none c10WitnessEnvelope).1 rfl)
      rfl⟩

end MappaNode
